import Mathlib

/-!
Verification development for the `fss-parse-pdf` repository, centred on the
multi-backend text-extraction orchestrator in `src/pdf_parser.py`
(`PDFParser.extract_text` and its helpers).

Modelling conventions:
* Python strings are modelled as `List Char` (`PyStr`), so that splitting,
  stripping and joining can be reasoned about by structural induction.
* Python floats are modelled as exact rationals `ℚ`; the scorer only
  multiplies by the literals 0.5, 0.7, 0.8, 0.9, 1.1 and compares against
  0.1, 0.7, 2, 12, 15, so rational arithmetic captures the algorithm.
* The mutable attribute `self.backend` is threaded explicitly through the
  functions as a state component, so that the restore performed by the
  `finally` block of `_try_fallback_extraction` is an explicit data flow.
* Python exceptions are modelled with `Except`: the only operations inside
  the `try` block of `extract_text` that can raise out of their own local
  handlers are `file_path.stat()` (first line of `_extract_metadata`,
  outside that function's `try`) and hitting the interpreter recursion
  limit in the mutually recursive fallback (`RecursionError`), modelled by
  a fuel parameter.
* Wall-clock timing (`extraction_time`, a float measured with
  `time.time()`) is not modelled; it is the one field of the result
  dataclass that is omitted.
* Each extraction backend (PyMuPDF / pdfplumber / PyPDF2) is a third-party
  library; what a backend reports for a given document is abstracted as a
  `BackendView` record inside the environment.
-/

attribute [local semireducible] Rat.mul Rat.inv Rat.add Rat.sub

/-- Python strings, modelled as lists of characters. -/
abbrev PyStr := List Char

/-- Whitespace test used by Python's `str.split()` / `str.strip()`
(ASCII approximation; the texts in this development only use ASCII and
Latin-1 characters). -/
def isWs (c : Char) : Bool := c.isWhitespace

/-- Helper for `pyWords`: accumulates the current (reversed) token. -/
def pyWordsAux : List Char → List Char → List (List Char)
  | acc, [] => if acc = [] then [] else [acc.reverse]
  | acc, c :: cs =>
    if isWs c then
      if acc = [] then pyWordsAux [] cs else acc.reverse :: pyWordsAux [] cs
    else
      pyWordsAux (c :: acc) cs

/-- Python `s.split()` with no argument: whitespace-delimited tokens,
empty tokens discarded. -/
def pyWords (l : PyStr) : List PyStr := pyWordsAux [] l

/-- Python `s.strip()`: drop leading and trailing whitespace. -/
def pyStrip (l : PyStr) : PyStr :=
  ((l.dropWhile isWs).reverse.dropWhile isWs).reverse

/-- Python `s.count('\n')`. -/
def countNl (l : PyStr) : Nat := l.count '\n'

/-- Does `pat` occur at the start of the second argument? -/
def seqAt : PyStr → PyStr → Bool
  | [], _ => true
  | _ :: _, [] => false
  | p :: ps, c :: cs => p = c && seqAt ps cs

/-- Python `pat in s`: substring containment. -/
def containsSeq (pat : PyStr) : PyStr → Bool
  | [] => seqAt pat []
  | c :: cs => seqAt pat (c :: cs) || containsSeq pat cs

/-- Python `sep.join(xs)`. -/
def pyJoin (sep : PyStr) : List PyStr → PyStr
  | [] => []
  | [x] => x
  | x :: y :: xs => x ++ sep ++ pyJoin sep (y :: xs)

/-- Python `s.split('\n')`: split at every newline, keeping empty
segments; always returns at least one segment. -/
def splitOnNl : PyStr → List PyStr
  | [] => [[]]
  | c :: cs =>
    if c = '\n' then [] :: splitOnNl cs
    else
      match splitOnNl cs with
      | [] => [[c]]
      | s :: ss => (c :: s) :: ss

/-- The mojibake replacement-character artifact searched for by
`_assess_page_quality` (the literal three-character string in the source). -/
def replacementArtifact : PyStr := ['ï', '¿', '½']

/-- `PDFParser._detect_tables_in_text`: at least 3 lines that have ≥ 3
whitespace-separated tokens and contain a double space. -/
def detectTables (t : PyStr) : Bool :=
  if t = [] then false
  else
    3 ≤ ((splitOnNl t).filter
      (fun line => 3 ≤ (pyWords line).length && containsSeq [' ', ' '] line)).length

/-- The `PDFMetadata` dataclass.  `creation_date`, `modification_date` and
`pdf_version` are never assigned by `_extract_metadata`, so they are kept
as always-`none` option fields. -/
structure PDFMetadata where
  title : Option String := none
  author : Option String := none
  subject : Option String := none
  keywords : Option String := none
  creator : Option String := none
  producer : Option String := none
  creation_date : Option String := none
  modification_date : Option String := none
  page_count : Nat := 0
  file_size : Nat := 0
  is_encrypted : Bool := false
  is_linearized : Bool := false
  pdf_version : Option String := none
deriving DecidableEq

/-- The `PageData` dataclass. -/
structure PageData where
  page_number : Nat
  text : PyStr
  word_count : Nat
  char_count : Nat
  has_images : Bool := false
  has_tables : Bool := false
  extraction_quality : ℚ := 1
deriving DecidableEq

/-- The `ExtractionResult` dataclass (minus the unmodelled wall-clock
`extraction_time` field).  Note the dataclass default
`quality_score = 1.0`, which failed results keep. -/
structure ExtractionResult where
  success : Bool
  text : PyStr
  pages : List PageData
  metadata : PDFMetadata
  backend_used : String
  quality_score : ℚ := 1
  error_message : Option String := none
deriving DecidableEq

/-- `PDFParser._assess_page_quality`, verbatim on the `PageData` fields. -/
def assessPageQuality (pd : PageData) : ℚ :=
  if pd.char_count = 0 then 0
  else
    let q1 : ℚ := 1
    let q2 := if pd.char_count < 50 then q1 * (1/2) else q1
    let q3 :=
      if 0 < pd.word_count ∧ (15 : ℚ) < (pd.char_count : ℚ) / (pd.word_count : ℚ)
      then q2 * (7/10) else q2
    let q4 :=
      if containsSeq replacementArtifact pd.text = true ∨
         (1/10 : ℚ) < (countNl pd.text : ℚ) / ((max 1 pd.char_count : Nat) : ℚ)
      then q3 * (4/5) else q3
    min 1 q4

/-- `PDFParser._assess_extraction_quality`, verbatim: average page quality,
then a ×1.1 / ×0.9 adjustment from the full text's mean word length,
clamped above by 1.0. -/
def assessExtractionQuality (pagesData : List PageData) (fullText : PyStr) : ℚ :=
  if pagesData = [] then 0
  else
    let avg := (pagesData.map (fun p => p.extraction_quality)).sum / (pagesData.length : ℚ)
    let totalChars := fullText.length
    let totalWords := (pyWords fullText).length
    if totalChars = 0 then 0
    else
      let q :=
        if 0 < totalWords then
          let awl := (totalChars : ℚ) / (totalWords : ℚ)
          if 2 ≤ awl ∧ awl ≤ 12 then avg * (11/10) else avg * (9/10)
        else avg
      min 1 q

/-- The full text built at line 215 of `extract_text`:
`"\n\n".join(page.text for page in pages_data if page.text.strip())`. -/
def fullTextOf (pagesData : List PageData) : PyStr :=
  pyJoin ['\n', '\n']
    ((pagesData.filter (fun p => !(pyStrip p.text).isEmpty)).map (fun p => p.text))

/-- The three extraction backends known to the parser. -/
inductive Backend
  | pymupdf
  | pdfplumber
  | pypdf2
deriving DecidableEq

/-- The string identifier used for `self.backend` / `backend_used`. -/
def Backend.name : Backend → String
  | .pymupdf => "pymupdf"
  | .pdfplumber => "pdfplumber"
  | .pypdf2 => "pypdf2"

/-- The fixed iteration order of `_try_fallback_extraction`
(`fallback_order = ['pymupdf', 'pdfplumber', 'pypdf2']`). -/
def fallbackOrder : List Backend := [.pymupdf, .pdfplumber, .pypdf2]

/-- What one backend library reports for the document under extraction.
Each library call may raise; those raise points that are observable
through the module's own exception handlers are modelled as flags:
`metaRaises` is an exception inside the `try` block of `_extract_metadata`
before `metadata.page_count` is assigned (for PyMuPDF the metadata-
dictionary reads precede that assignment), and `contentRaiseAfter = some k`
is an exception inside the `try` block of `_extract_pages_content` after
`k` page records have been appended. -/
structure BackendView where
  pageCount : Nat
  pageText : Nat → PyStr
  pageImages : Nat → Bool
  pageTables : Nat → Bool
  metaRaises : Bool := false
  contentRaiseAfter : Option Nat := none
  title : Option String := none
  author : Option String := none
  subject : Option String := none
  keywords : Option String := none
  creator : Option String := none
  producer : Option String := none
  isEncrypted : Bool := false
  isPdf : Bool := true

/-- The environment of one `extract_text` call: which libraries imported
successfully (`_has_pymupdf` …), the target file, and the configured
quality threshold (`config.get('quality_threshold', 0.7)`). -/
structure Env where
  hasPymupdf : Bool
  hasPdfplumber : Bool
  hasPypdf2 : Bool
  canParse : Bool
  pathStr : String
  fileSize : Nat
  statRaises : Bool := false
  statMsg : String := "stat failed"
  view : Backend → BackendView
  thr : ℚ := 7/10

/-- `PDFParser._backend_available`. -/
def backendAvailable (env : Env) : Backend → Bool
  | .pymupdf => env.hasPymupdf
  | .pdfplumber => env.hasPdfplumber
  | .pypdf2 => env.hasPypdf2

/-- The `all_backends` list built by `_has_fallback_backend`. -/
def availList (env : Env) : List Backend :=
  (if env.hasPymupdf then [Backend.pymupdf] else []) ++
  (if env.hasPdfplumber then [Backend.pdfplumber] else []) ++
  (if env.hasPypdf2 then [Backend.pypdf2] else [])

/-- `PDFParser._has_fallback_backend`: is some available backend different
from the current one? -/
def hasFallback (env : Env) (cur : Backend) : Bool :=
  !((availList env).filter (fun b => b ≠ cur)).isEmpty

/-- Exceptions that can escape into the `except` handler of
`extract_text`: a filesystem `stat` failure (first line of
`_extract_metadata`, outside that function's own `try`), or the
interpreter recursion limit being hit during the mutually recursive
fallback. -/
inductive Exc
  | statExc (msg : String)
  | recursionError
deriving DecidableEq

deriving instance DecidableEq for Except

/-- `str(e)` for the modelled exceptions. -/
def excMsg : Exc → String
  | .statExc m => m
  | .recursionError => "maximum recursion depth exceeded"

/-- `PDFParser._extract_metadata`, under the assumption that `stat` did
not raise (that raise is handled by the caller's `except`).  If an
exception occurs inside the local `try` before `page_count` is assigned,
only `file_size` survives. -/
def extractMetadata (env : Env) (cur : Backend) : PDFMetadata :=
  let v := env.view cur
  if v.metaRaises then { file_size := env.fileSize }
  else
    match cur with
    | .pymupdf =>
      { title := v.title, author := v.author, subject := v.subject,
        keywords := v.keywords, creator := v.creator, producer := v.producer,
        page_count := v.pageCount, file_size := env.fileSize,
        is_encrypted := v.isEncrypted, is_linearized := v.isPdf }
    | .pdfplumber =>
      { title := v.title, author := v.author, subject := v.subject,
        keywords := v.keywords, creator := v.creator, producer := v.producer,
        page_count := v.pageCount, file_size := env.fileSize }
    | .pypdf2 =>
      { title := v.title, author := v.author, subject := v.subject,
        keywords := v.keywords, creator := v.creator, producer := v.producer,
        page_count := v.pageCount, file_size := env.fileSize,
        is_encrypted := v.isEncrypted }

/-- Pythonic truthiness of the optional page list: `None` and `[]` are
both falsy (`if pages:` / `if target_pages and …`). -/
def truthy : Option (List Int) → Bool
  | none => false
  | some l => !l.isEmpty

/-- One `PageData` record as built inside the page loop of
`_extract_pages_content` for 0-indexed page `i`, including the
`extraction_quality` assignment that follows construction. -/
def buildPageData (env : Env) (cur : Backend) (i : Nat) : PageData :=
  let v := env.view cur
  let t := v.pageText i
  let pd0 : PageData :=
    { page_number := i + 1,
      text := t,
      word_count := if t = [] then 0 else (pyWords t).length,
      char_count := t.length,
      has_images := match cur with
        | .pypdf2 => false
        | _ => v.pageImages i,
      has_tables := match cur with
        | .pdfplumber => v.pageTables i
        | _ => detectTables t }
  { pd0 with extraction_quality := assessPageQuality pd0 }

/-- `PDFParser._extract_pages_content`: iterate the document's own page
range, skip pages not in a truthy `target_pages`, and if an exception
occurs mid-loop return the records appended so far (the surrounding
`try`/`except` swallows the exception). -/
def extractPagesContent (env : Env) (cur : Backend) (targetPages : Option (List Int)) :
    List PageData :=
  let v := env.view cur
  let selected := (List.range v.pageCount).filter
    (fun (i : Nat) => !(truthy targetPages && !((targetPages.getD []).contains ((i + 1 : Nat) : Int))))
  let records := selected.map (buildPageData env cur)
  match v.contentRaiseAfter with
  | none => records
  | some k => records.take k

/-- The failed `ExtractionResult` built by the `except` handler of
`extract_text` (fresh `PDFMetadata()`, dataclass-default quality 1.0). -/
def excFail (e : Exc) (cur : Backend) : ExtractionResult :=
  { success := false, text := [], pages := [], metadata := {},
    backend_used := cur.name, error_message := some (excMsg e) }

/-- The failed result for an unparsable path (line 182 of
`pdf_parser.py`). -/
def cannotParseFail (env : Env) (cur : Backend) : ExtractionResult :=
  { success := false, text := [], pages := [], metadata := {},
    backend_used := cur.name,
    error_message := some ("Cannot parse file: " ++ env.pathStr) }

/-- The failed result for an empty bounds-filtered page selection. -/
def noValidPagesFail (md : PDFMetadata) (cur : Backend) : ExtractionResult :=
  { success := false, text := [], pages := [], metadata := md,
    backend_used := cur.name, error_message := some "No valid pages specified" }

/-- The failed result returned when the fallback loop exhausts all
alternate backends (line 484 of `pdf_parser.py`). -/
def allFallbacksFail : ExtractionResult :=
  { success := false, text := [], pages := [], metadata := {},
    backend_used := "fallback_failed",
    error_message := some "All fallback backends failed" }

/-- The bounds filter applied to a truthy explicit page list
(`pages = [p for p in pages if 1 <= p <= metadata.page_count]`). -/
def filteredOf (env : Env) (cur : Backend) (pages : Option (List Int)) : List Int :=
  (pages.getD []).filter
    (fun p => decide (1 ≤ p ∧ p ≤ ((extractMetadata env cur).page_count : Int)))

/-- The successful `ExtractionResult` constructed at line 222 of
`extract_text`: extracted page records, their joined text, the metadata,
the current backend and the aggregate quality score. -/
def successResult (env : Env) (cur : Backend) (pv : Option (List Int)) : ExtractionResult :=
  let pagesData := extractPagesContent env cur pv
  let fullText := fullTextOf pagesData
  { success := true, text := fullText, pages := pagesData,
    metadata := extractMetadata env cur, backend_used := cur.name,
    quality_score := assessExtractionQuality pagesData fullText }

/-- The single extraction attempt of `extract_text` with the current
backend, from the `can_parse` guard through quality scoring — everything
before the fallback decision.  Returns the `Except`-wrapped result
(`Except.error` = an exception escaping to the caller's handler) together
with the rebound `pages` variable (the rebinding happens only when
`pages` is truthy), which `extract_text` later passes to
`_try_fallback_extraction`. -/
def attemptResult (env : Env) (cur : Backend) (pages : Option (List Int)) :
    (Except Exc ExtractionResult) × Option (List Int) :=
  if env.canParse = false then (Except.ok (cannotParseFail env cur), pages)
  else if env.statRaises then (Except.error (Exc.statExc env.statMsg), pages)
  else if truthy pages then
    if (filteredOf env cur pages).isEmpty then
      (Except.ok (noValidPagesFail (extractMetadata env cur) cur),
       some (filteredOf env cur pages))
    else
      (Except.ok (successResult env cur (some (filteredOf env cur pages))),
       some (filteredOf env cur pages))
  else (Except.ok (successResult env cur pages), pages)

/-- The signature of a recursive `self.extract_text(file_path, pages)`
call as seen from `_try_fallback_extraction`: given the backend that was
just assigned to `self.backend` and the page list, produce the
`Except`-wrapped result (an `error` models `RecursionError` being raised
on entry), the value of `self.backend` when the call returns, and the
trace of pipeline activations performed by the call (ghost data used for
the temporal claims). -/
abbrev InnerCall :=
  Backend → Option (List Int) → (Except Exc ExtractionResult) × Backend × List Backend

/-- The `for backend in fallback_order:` loop body of
`_try_fallback_extraction`.  State component: the value of
`self.backend`, threaded through assignments and inner calls.  Outputs:
loop outcome, final `self.backend`, flattened activation trace, and the
list of alternate backends directly attempted by this invocation (ghost
data). -/
def fallbackGo (env : Env) (inner : InnerCall) (original : Backend)
    (pages : Option (List Int)) :
    List Backend → Backend →
    (Except Exc ExtractionResult) × Backend × List Backend × List Backend
  | [], st => (Except.ok allFallbacksFail, st, [], [])
  | b :: rest, st =>
    if b ≠ original ∧ backendAvailable env b = true then
      match inner b pages with
      | (Except.error e, st2, tr) => (Except.error e, st2, tr, [b])
      | (Except.ok r, st2, tr) =>
        if r.success then (Except.ok r, st2, tr, [b])
        else
          let (res, st3, tr2, d2) := fallbackGo env inner original pages rest st2
          (res, st3, tr ++ tr2, b :: d2)
    else fallbackGo env inner original pages rest st

/-- `PDFParser._try_fallback_extraction`.  The `finally` block restores
`self.backend = original_backend` on every exit path (normal return,
loop exhaustion, or a propagating exception), which is why the state
component of the output is always `original`. -/
def tryFallback (env : Env) (inner : InnerCall) (original : Backend)
    (pages : Option (List Int)) :
    (Except Exc ExtractionResult) × Backend × List Backend × List Backend :=
  let o := fallbackGo env inner original pages fallbackOrder original
  (o.1, original, o.2.2.1, o.2.2.2)

/-- The whole `try` block of `extract_text` (attempt, then the
quality-gated fallback), before the `except` handler.  The activation
trace records this activation's backend followed by the backends of the
pipeline activations made by the fallback. -/
def bodyResult (env : Env) (inner : InnerCall) (cur : Backend)
    (pages : Option (List Int)) :
    (Except Exc ExtractionResult) × Backend × List Backend :=
  match attemptResult env cur pages with
  | (Except.error e, _) => (Except.error e, cur, [cur])
  | (Except.ok r, pagesV) =>
    if r.success = true ∧ r.quality_score < env.thr ∧ hasFallback env cur = true then
      match tryFallback env inner cur pagesV with
      | (Except.error e, st, tr, _) => (Except.error e, st, cur :: tr)
      | (Except.ok fb, st, tr, _) =>
        if fb.success = true ∧ r.quality_score < fb.quality_score
        then (Except.ok fb, st, cur :: tr)
        else (Except.ok r, st, cur :: tr)
    else (Except.ok r, cur, [cur])

/-- `extract_text` for a given inner-call semantics: the `try` body with
the catch-all `except Exception` handler wrapped around it. -/
def extractCore (env : Env) (inner : InnerCall) (cur : Backend)
    (pages : Option (List Int)) : ExtractionResult × Backend × List Backend :=
  match bodyResult env inner cur pages with
  | (Except.ok r, st, tr) => (r, st, tr)
  | (Except.error e, st, tr) => (excFail e cur, st, tr)

/-- `PDFParser.extract_text`, with fuel bounding the recursion depth of
the `extract_text` / `_try_fallback_extraction` cycle: with fuel `n + 1`
an inner call runs with fuel `n`; with fuel `0` an inner call raises
`RecursionError` (the interpreter recursion limit). -/
def extractTextF (env : Env) : Nat → Backend → Option (List Int) →
    ExtractionResult × Backend × List Backend
  | 0, cur, pages =>
    extractCore env (fun b _ => (Except.error Exc.recursionError, b, [])) cur pages
  | n + 1, cur, pages =>
    extractCore env
      (fun b ps =>
        let o := extractTextF env n b ps
        (Except.ok o.1, o.2.1, o.2.2))
      cur pages

/-- An all-false / empty view, for environments where a backend's
behaviour is irrelevant. -/
def blankView : BackendView :=
  { pageCount := 0, pageText := fun _ => [],
    pageImages := fun _ => false, pageTables := fun _ => false }

/-- A page text long and word-like enough to score a clean 1.0. -/
def goodText : PyStr :=
  "The quick brown fox jumps over the lazy dog near the river bank".toList

/-- Environment with all three libraries importable.  The primary backend
extracts page 3 as the two-character text "ab" (low quality, score 0.55);
pdfplumber reports only 2 pages, so the page selection `[3]` empties and
that alternate attempt fails with `NoValidPages`; PyPDF2 then succeeds
with a clean page (score 1.0). -/
def envA : Env :=
  { hasPymupdf := true, hasPdfplumber := true, hasPypdf2 := true,
    canParse := true, pathStr := "doc.pdf", fileSize := 100,
    view := fun b =>
      match b with
      | .pymupdf =>
        { blankView with
          pageCount := 5,
          pageText := fun i => if i = 2 then "ab".toList else [] }
      | .pdfplumber => { blankView with pageCount := 2 }
      | .pypdf2 =>
        { blankView with
          pageCount := 5,
          pageText := fun i => if i = 2 then goodText else [] } }

/-- The per-page score formula exactly as the specification words it:
1.0 multiplicatively penalised (×0.5 for `0 < char_count < 50`, ×0.7 for
long average words, ×0.8 for artifacts or high newline density — the
spec phrases the density test as newline count exceeding 10% of
`char_count`), short-circuited to 0.0 for `char_count == 0`, clamped to
at most 1.0. -/
def pageQualitySpecC2 (pd : PageData) : ℚ :=
  if pd.char_count = 0 then 0
  else
    min 1
      ((if 0 < pd.char_count ∧ pd.char_count < 50 then (1 : ℚ)/2 else 1) *
       (if 0 < pd.word_count ∧ (15 : ℚ) < (pd.char_count : ℚ) / (pd.word_count : ℚ)
        then (7 : ℚ)/10 else 1) *
       (if containsSeq replacementArtifact pd.text = true ∨
           (pd.char_count : ℚ) / 10 < (countNl pd.text : ℚ)
        then (4 : ℚ)/5 else 1))

/-- The aggregate score formula exactly as the specification words it:
0.0 for an empty page sequence or zero total characters, otherwise the
mean page score times 1.1 (when some word exists and the mean word
length is within [2, 12]) or times 0.9 (otherwise), clamped to [0, 1]. -/
def aggregateSpecC3 (pagesData : List PageData) (fullText : PyStr) : ℚ :=
  if pagesData = [] ∨ fullText.length = 0 then 0
  else
    let mean := (pagesData.map (fun p => p.extraction_quality)).sum / (pagesData.length : ℚ)
    let tw := (pyWords fullText).length
    let mwl := (fullText.length : ℚ) / (tw : ℚ)
    max 0 (min 1 (mean * (if 0 < tw ∧ 2 ≤ mwl ∧ mwl ≤ 12 then (11 : ℚ)/10 else (9 : ℚ)/10)))

/-- The error message of the `ImportError` raised by
`_select_pdf_backend` when no extraction library imported. -/
def noBackendMsg : String :=
  "No PDF parsing libraries available. Install PyMuPDF, pdfplumber, or PyPDF2"

/-- `PDFParser._select_pdf_backend`: honour an explicitly requested,
available backend; otherwise (including when the requested backend is
unavailable, which only logs a warning) auto-select in quality order;
raise `ImportError` when nothing is available. -/
def selectBackend (preferred : String) (hp hd h2 : Bool) : Except String String :=
  if preferred = "pymupdf" ∧ hp = true then Except.ok "pymupdf"
  else if preferred = "pdfplumber" ∧ hd = true then Except.ok "pdfplumber"
  else if preferred = "pypdf2" ∧ h2 = true then Except.ok "pypdf2"
  else if hp = true then Except.ok "pymupdf"
  else if hd = true then Except.ok "pdfplumber"
  else if h2 = true then Except.ok "pypdf2"
  else Except.error noBackendMsg

/-- Environment whose file `stat` raises inside `extract_text`'s `try`
block (the one raise point of `_extract_metadata` outside its own local
handler). -/
def envStat : Env :=
  { hasPymupdf := true, hasPdfplumber := false, hasPypdf2 := false,
    canParse := true, pathStr := "x.pdf", fileSize := 3,
    statRaises := true, view := fun _ => blankView }

/-- Environment where only PyMuPDF is importable, the metadata read
raises (so `metadata.page_count` stays 0) while page iteration works and
yields one page. -/
def envB : Env :=
  { hasPymupdf := true, hasPdfplumber := false, hasPypdf2 := false,
    canParse := true, pathStr := "b.pdf", fileSize := 5,
    view := fun _ =>
      { blankView with
        pageCount := 1,
        metaRaises := true,
        pageText := fun _ => "Hello world from page one".toList } }

/-- The inner-call semantics of an `extract_text` activation that has no
recursion budget left: entering the callee raises `RecursionError`. -/
def innerNone : InnerCall :=
  fun b _ => (Except.error Exc.recursionError, b, [])

example : pyWords "ab cd  e".toList = ["ab".toList, "cd".toList, "e".toList] := by decide
example : pyStrip "  ab ".toList = "ab".toList := by decide
example : containsSeq "¿½".toList "xï¿½y".toList = true := by decide
example : assessPageQuality
    { page_number := 1, text := "ab".toList, word_count := 1, char_count := 2 } = 1/2 := by decide
example : splitOnNl "a\nb".toList = ["a".toList, "b".toList] := by decide
example : (extractTextF envA 10 Backend.pymupdf (some [3])).2.2 =
    [Backend.pymupdf, Backend.pdfplumber, Backend.pypdf2] := by decide
example : (extractTextF envA 10 Backend.pymupdf (some [3])).1.backend_used = "pypdf2" := by
  decide
example : (extractTextF envA 10 Backend.pymupdf (some [3])).1.quality_score = 1 := by decide
example : (attemptResult envA Backend.pymupdf (some [3])).2 = some [3] := by decide

lemma assessPageQuality_nonneg (pd : PageData) : 0 ≤ assessPageQuality pd := by
  unfold assessPageQuality
  split_ifs <;> norm_num

lemma assessPageQuality_le_one (pd : PageData) : assessPageQuality pd ≤ 1 := by
  unfold assessPageQuality
  split_ifs <;> norm_num

lemma assessExtractionQuality_le_one (pagesData : List PageData) (fullText : PyStr) :
    assessExtractionQuality pagesData fullText ≤ 1 := by
  rcases eq_or_ne pagesData [] with h1 | h1
  · simp [assessExtractionQuality, h1]
  · rcases eq_or_ne fullText.length 0 with h2 | h2
    · simp [assessExtractionQuality, h1, h2]
    · simp only [assessExtractionQuality, if_neg h1, if_neg h2]
      exact min_le_left _ _

lemma assessExtractionQuality_nonneg (pagesData : List PageData) (fullText : PyStr)
    (h : ∀ p ∈ pagesData, 0 ≤ p.extraction_quality) :
    0 ≤ assessExtractionQuality pagesData fullText := by
  have hmean : 0 ≤ (pagesData.map (fun p => p.extraction_quality)).sum / (pagesData.length : ℚ) := by
    apply div_nonneg
    · apply List.sum_nonneg
      intro x hx
      rcases List.mem_map.1 hx with ⟨p, hp, rfl⟩
      exact h p hp
    · positivity
  rcases eq_or_ne pagesData [] with h1 | h1
  · simp [assessExtractionQuality, h1]
  · rcases eq_or_ne fullText.length 0 with h2 | h2
    · simp [assessExtractionQuality, h1, h2]
    · simp only [assessExtractionQuality, if_neg h1, if_neg h2]
      rw [le_min_iff]
      refine ⟨by norm_num, ?_⟩
      split_ifs with hw hr
      · exact mul_nonneg hmean (by norm_num)
      · exact mul_nonneg hmean (by norm_num)
      · exact hmean

lemma page_quality_eq_spec (pd : PageData) :
    assessPageQuality pd = pageQualitySpecC2 pd := by
  rcases eq_or_ne pd.char_count 0 with h0 | h0
  · simp [assessPageQuality, pageQualitySpecC2, h0]
  · have hpos : 0 < pd.char_count := Nat.pos_of_ne_zero h0
    have hmax : (max 1 pd.char_count) = pd.char_count := by omega
    have hart :
        ((1 : ℚ)/10 < (countNl pd.text : ℚ) / ((max 1 pd.char_count : Nat) : ℚ)) ↔
        ((pd.char_count : ℚ) / 10 < (countNl pd.text : ℚ)) := by
      rw [hmax]
      have hq : (0 : ℚ) < (pd.char_count : ℚ) := by exact_mod_cast hpos
      rw [div_lt_div_iff₀ (by norm_num) hq, div_lt_iff₀ (by norm_num : (0:ℚ) < 10)]
      constructor <;> intro <;> linarith
    have h50 : (0 < pd.char_count ∧ pd.char_count < 50) ↔ pd.char_count < 50 :=
      and_iff_right hpos
    simp only [assessPageQuality, pageQualitySpecC2, if_neg h0, h50, hart]
    split_ifs <;> ring_nf

lemma pyWordsAux_ne_nil_acc (l : PyStr) : ∀ acc, acc ≠ [] → pyWordsAux acc l ≠ [] := by
  induction l with
  | nil => intro acc h; simp [pyWordsAux, h]
  | cons c cs ih =>
    intro acc h
    simp only [pyWordsAux]
    by_cases h1 : isWs c = true
    · rw [if_pos h1, if_neg h]
      simp
    · rw [if_neg h1]
      exact ih (c :: acc) (by simp)

lemma pyWordsAux_ne_nil (l : PyStr) :
    ∀ acc, (∃ c ∈ l, isWs c = false) → pyWordsAux acc l ≠ [] := by
  induction l with
  | nil => intro acc h; rcases h with ⟨c, hc, _⟩; simp at hc
  | cons c cs ih =>
    intro acc h
    simp only [pyWordsAux]
    by_cases h1 : isWs c = true
    · have hcs : ∃ d ∈ cs, isWs d = false := by
        rcases h with ⟨d, hd, hws⟩
        rcases List.mem_cons.1 hd with rfl | hmem
        · rw [h1] at hws; cases hws
        · exact ⟨d, hmem, hws⟩
      rw [if_pos h1]
      split_ifs with h2
      · exact ih [] hcs
      · simp
    · rw [if_neg h1]
      exact pyWordsAux_ne_nil_acc cs (c :: acc) (by simp)

lemma pyStrip_ne_nil (t : PyStr) (h : pyStrip t ≠ []) : ∃ c ∈ t, isWs c = false := by
  by_contra hall
  push_neg at hall
  apply h
  unfold pyStrip
  have h1 : t.dropWhile isWs = [] :=
    List.dropWhile_eq_nil_iff.2 (fun c hc => by simpa using hall c hc)
  simp [h1]

lemma mem_pyJoin_head (sep t : PyStr) (rest : List PyStr) (c : Char) (hc : c ∈ t) :
    c ∈ pyJoin sep (t :: rest) := by
  cases rest with
  | nil => simpa [pyJoin] using hc
  | cons y ys =>
    simp only [pyJoin, List.mem_append]
    exact Or.inl (Or.inl hc)

lemma fullTextOf_words (pagesData : List PageData)
    (h : (fullTextOf pagesData).length ≠ 0) : pyWords (fullTextOf pagesData) ≠ [] := by
  cases hl : pagesData.filter (fun p => !(pyStrip p.text).isEmpty) with
  | nil =>
    exfalso
    apply h
    unfold fullTextOf
    rw [hl]
    simp [pyJoin]
  | cons p rest =>
    have hp : (!(pyStrip p.text).isEmpty) = true := by
      have hmem : p ∈ pagesData.filter (fun q => !(pyStrip q.text).isEmpty) := by
        rw [hl]; exact List.mem_cons_self _ _
      exact (List.mem_filter.1 hmem).2
    have hne : pyStrip p.text ≠ [] := by
      intro hnil
      rw [hnil] at hp
      simp at hp
    rcases pyStrip_ne_nil p.text hne with ⟨c, hc, hws⟩
    have hfull : fullTextOf pagesData = pyJoin ['\n', '\n'] (p.text :: rest.map (fun q => q.text)) := by
      unfold fullTextOf
      rw [hl]
      simp
    unfold pyWords
    apply pyWordsAux_ne_nil
    refine ⟨c, ?_, hws⟩
    rw [hfull]
    exact mem_pyJoin_head _ _ _ _ hc

lemma aggregate_eq_spec (pagesData : List PageData)
    (h : ∀ p ∈ pagesData, 0 ≤ p.extraction_quality) :
    assessExtractionQuality pagesData (fullTextOf pagesData) =
      aggregateSpecC3 pagesData (fullTextOf pagesData) := by
  rcases eq_or_ne pagesData [] with h1 | h1
  · simp [assessExtractionQuality, aggregateSpecC3, h1]
  · rcases eq_or_ne (fullTextOf pagesData).length 0 with h2 | h2
    · simp [assessExtractionQuality, aggregateSpecC3, h1, h2]
    · have htw : pyWords (fullTextOf pagesData) ≠ [] := fullTextOf_words pagesData h2
      have htw' : 0 < (pyWords (fullTextOf pagesData)).length :=
        List.length_pos.2 htw
      have hmean : 0 ≤ (pagesData.map (fun p => p.extraction_quality)).sum /
          (pagesData.length : ℚ) := by
        apply div_nonneg
        · apply List.sum_nonneg
          intro x hx
          rcases List.mem_map.1 hx with ⟨p, hp, rfl⟩
          exact h p hp
        · positivity
      simp only [assessExtractionQuality, aggregateSpecC3, if_neg h1, if_neg h2,
        not_or]
      rw [if_neg (by simp [h1, h2] : ¬(pagesData = [] ∨ (fullTextOf pagesData).length = 0))]
      rw [if_pos htw']
      simp only [and_iff_right htw']
      have hfac : ∀ x : ℚ, 0 ≤ x → max 0 (min 1 x) = min 1 x := fun x hx =>
        max_eq_right (le_min (by norm_num) hx)
      split_ifs with hr
      · exact (hfac _ (mul_nonneg hmean (by norm_num))).symm
      · exact (hfac _ (mul_nonneg hmean (by norm_num))).symm


lemma attemptResult_ok_le_one (env : Env) (cur : Backend) (pages : Option (List Int))
    (r : ExtractionResult) (pv : Option (List Int))
    (h : attemptResult env cur pages = (Except.ok r, pv)) : r.quality_score ≤ 1 := by
  unfold attemptResult at h
  split_ifs at h with h1 h2 h3 h4
  · injection h with hl hr
    injection hl with hl
    rw [← hl]
    norm_num [cannotParseFail]
  · injection h with hl hr
    exact Except.noConfusion hl
  · injection h with hl hr
    injection hl with hl
    rw [← hl]
    norm_num [noValidPagesFail]
  · injection h with hl hr
    injection hl with hl
    rw [← hl]
    exact assessExtractionQuality_le_one _ _
  · injection h with hl hr
    injection hl with hl
    rw [← hl]
    exact assessExtractionQuality_le_one _ _

lemma attemptResult_ok_false_empty (env : Env) (cur : Backend) (pages : Option (List Int))
    (r : ExtractionResult) (pv : Option (List Int))
    (h : attemptResult env cur pages = (Except.ok r, pv)) (hs : r.success = false) :
    r.text = [] ∧ r.pages = [] := by
  unfold attemptResult at h
  split_ifs at h with h1 h2 h3 h4
  · injection h with hl hr
    injection hl with hl
    rw [← hl]
    exact ⟨rfl, rfl⟩
  · injection h with hl hr
    exact Except.noConfusion hl
  · injection h with hl hr
    injection hl with hl
    rw [← hl]
    exact ⟨rfl, rfl⟩
  · injection h with hl hr
    injection hl with hl
    rw [← hl] at hs
    exact absurd hs (by simp [successResult])
  · injection h with hl hr
    injection hl with hl
    rw [← hl] at hs
    exact absurd hs (by simp [successResult])

lemma tryFallback_state (env : Env) (inner : InnerCall) (original : Backend)
    (pages : Option (List Int)) : (tryFallback env inner original pages).2.1 = original := rfl

lemma bodyResult_state (env : Env) (inner : InnerCall) (cur : Backend)
    (pages : Option (List Int)) : (bodyResult env inner cur pages).2.1 = cur := by
  unfold bodyResult
  split
  · rfl
  · rename_i r pagesV heq0
    split
    · split
      · rename_i e st tr snd heq
        have h2 := tryFallback_state env inner cur pagesV
        rw [heq] at h2
        exact h2
      · rename_i fb st tr snd heq
        have h2 := tryFallback_state env inner cur pagesV
        rw [heq] at h2
        split <;> exact h2
    · rfl

lemma extractCore_state (env : Env) (inner : InnerCall) (cur : Backend)
    (pages : Option (List Int)) : (extractCore env inner cur pages).2.1 = cur := by
  have h := bodyResult_state env inner cur pages
  unfold extractCore
  split <;> rename_i heq <;> rw [heq] at h <;> exact h

lemma bodyResult_ok_false_empty (env : Env) (inner : InnerCall) (cur : Backend)
    (pages : Option (List Int)) (r : ExtractionResult) (st : Backend) (tr : List Backend)
    (heq : bodyResult env inner cur pages = (Except.ok r, st, tr))
    (hs : r.success = false) : r.text = [] ∧ r.pages = [] := by
  unfold bodyResult at heq
  split at heq
  · injection heq with h1 h2
    exact Except.noConfusion h1
  · rename_i r0 pagesV heq0
    split at heq
    · rename_i hcond
      split at heq
      · injection heq with h1 h2
        exact Except.noConfusion h1
      · rename_i fb st2 tr2 snd2 htf
        split at heq
        · rename_i hfb
          injection heq with h1 h2
          injection h1 with h1
          subst h1
          rw [hfb.1] at hs
          cases hs
        · injection heq with h1 h2
          injection h1 with h1
          subst h1
          rw [hcond.1] at hs
          cases hs
    · injection heq with h1 h2
      injection h1 with h1
      subst h1
      exact attemptResult_ok_false_empty env cur pages r0 pagesV heq0 hs

lemma extractCore_false_empty (env : Env) (inner : InnerCall) (cur : Backend)
    (pages : Option (List Int))
    (h : (extractCore env inner cur pages).1.success = false) :
    (extractCore env inner cur pages).1.text = [] ∧
      (extractCore env inner cur pages).1.pages = [] := by
  rcases hb : bodyResult env inner cur pages with ⟨er | r0, st, tr⟩
  · simp only [extractCore, hb]
    exact ⟨rfl, rfl⟩
  · simp only [extractCore, hb]
    simp only [extractCore, hb] at h
    exact bodyResult_ok_false_empty env inner cur pages r0 st tr hb h

lemma bodyResult_ge_attempt (env : Env) (inner : InnerCall) (cur : Backend)
    (pages : Option (List Int)) (r : ExtractionResult) (pv : Option (List Int))
    (ha : attemptResult env cur pages = (Except.ok r, pv)) :
    (∃ e st tr, bodyResult env inner cur pages = (Except.error e, st, tr)) ∨
    (∃ r2 st tr, bodyResult env inner cur pages = (Except.ok r2, st, tr) ∧
      r.quality_score ≤ r2.quality_score) := by
  unfold bodyResult
  rw [ha]
  dsimp only
  by_cases hcond : r.success = true ∧ r.quality_score < env.thr ∧ hasFallback env cur = true
  · rw [if_pos hcond]
    rcases htf : tryFallback env inner cur pv with ⟨er | fb, st2, tr2, d2⟩
    · exact Or.inl ⟨er, st2, cur :: tr2, rfl⟩
    · dsimp only
      by_cases hfb : fb.success = true ∧ r.quality_score < fb.quality_score
      · rw [if_pos hfb]
        exact Or.inr ⟨fb, st2, cur :: tr2, rfl, le_of_lt hfb.2⟩
      · rw [if_neg hfb]
        exact Or.inr ⟨r, st2, cur :: tr2, rfl, le_refl _⟩
  · rw [if_neg hcond]
    exact Or.inr ⟨r, cur, [cur], rfl, le_refl _⟩

lemma extractCore_ge_attempt (env : Env) (inner : InnerCall) (cur : Backend)
    (pages : Option (List Int)) (r : ExtractionResult) (pv : Option (List Int))
    (ha : attemptResult env cur pages = (Except.ok r, pv)) :
    r.quality_score ≤ (extractCore env inner cur pages).1.quality_score := by
  rcases bodyResult_ge_attempt env inner cur pages r pv ha with
    ⟨e, st, tr, hb⟩ | ⟨r2, st, tr, hb, hle⟩
  · simp only [extractCore, hb]
    calc r.quality_score ≤ 1 := attemptResult_ok_le_one env cur pages r pv ha
    _ = (excFail e cur).quality_score := rfl
  · simp only [extractCore, hb]
    exact hle

lemma extractMetadata_page_count (env : Env) (cur : Backend)
    (h : (env.view cur).metaRaises = false) :
    (extractMetadata env cur).page_count = (env.view cur).pageCount := by
  cases cur <;> simp [extractMetadata, h]

lemma extractPagesContent_length (env : Env) (cur : Backend) (tp : Option (List Int)) :
    (extractPagesContent env cur tp).length ≤ (env.view cur).pageCount := by
  unfold extractPagesContent
  dsimp only
  have hbase :
      (((List.range (env.view cur).pageCount).filter
          (fun i => !(truthy tp && !((tp.getD []).contains ((i + 1 : Nat) : Int))))).map
        (buildPageData env cur)).length ≤ (env.view cur).pageCount := by
    rw [List.length_map]
    calc (List.filter _ (List.range (env.view cur).pageCount)).length
        ≤ (List.range (env.view cur).pageCount).length := List.length_filter_le _ _
    _ = (env.view cur).pageCount := List.length_range _
  split
  · exact hbase
  · exact le_trans (by rw [List.length_take]; exact min_le_right _ _) hbase

lemma extractPagesContent_mem (env : Env) (cur : Backend) (tp : Option (List Int))
    (pd : PageData) (h : pd ∈ extractPagesContent env cur tp) :
    ∃ i, i < (env.view cur).pageCount ∧ pd = buildPageData env cur i ∧
      (truthy tp = true → ((i + 1 : Nat) : Int) ∈ tp.getD []) := by
  unfold extractPagesContent at h
  dsimp only at h
  have hmem : pd ∈ ((List.range (env.view cur).pageCount).filter
      (fun i => !(truthy tp && !((tp.getD []).contains ((i + 1 : Nat) : Int))))).map
        (buildPageData env cur) := by
    revert h
    split
    · exact id
    · exact fun h => List.mem_of_mem_take h
  rcases List.mem_map.1 hmem with ⟨i, hi, rfl⟩
  have hi1 : i ∈ List.range (env.view cur).pageCount := List.mem_of_mem_filter hi
  have hi2 := List.of_mem_filter hi
  refine ⟨i, List.mem_range.1 hi1, rfl, ?_⟩
  intro ht
  rw [ht] at hi2
  simp only [Bool.true_and, Bool.not_eq_eq_eq_not, Bool.not_true, Bool.not_eq_false] at hi2
  simpa using hi2

lemma buildPageData_page_number (env : Env) (cur : Backend) (i : Nat) :
    (buildPageData env cur i).page_number = i + 1 := rfl

lemma attemptResult_ok_success (env : Env) (cur : Backend) (pages : Option (List Int))
    (r : ExtractionResult) (pv : Option (List Int))
    (h : attemptResult env cur pages = (Except.ok r, pv)) (hs : r.success = true) :
    r = successResult env cur pv ∧
    (truthy pages = true →
      pv = some (filteredOf env cur pages) ∧ (filteredOf env cur pages).isEmpty = false) ∧
    (truthy pages = false → pv = pages) := by
  unfold attemptResult at h
  split_ifs at h with h1 h2 h3 h4
  · injection h with hl hr
    injection hl with hl
    rw [← hl] at hs
    exact absurd hs (by simp [cannotParseFail])
  · injection h with hl hr
    exact Except.noConfusion hl
  · injection h with hl hr
    injection hl with hl
    rw [← hl] at hs
    exact absurd hs (by simp [noValidPagesFail])
  · injection h with hl hr
    injection hl with hl
    subst hl
    subst hr
    refine ⟨rfl, fun _ => ⟨rfl, by simpa using h4⟩, fun hf => absurd h3 (by simp [hf])⟩
  · injection h with hl hr
    injection hl with hl
    subst hl
    subst hr
    exact ⟨rfl, fun ht => absurd ht (by simp [h3]), fun _ => rfl⟩

lemma fallbackGo_ok (env : Env) (inner : InnerCall) (original : Backend)
    (pages : Option (List Int)) :
    ∀ (l : List Backend) (st : Backend) (fb : ExtractionResult) (st2 : Backend)
      (tr d : List Backend),
      fallbackGo env inner original pages l st = (Except.ok fb, st2, tr, d) →
      fb = allFallbacksFail ∨ ∃ b st3 tr3, inner b pages = (Except.ok fb, st3, tr3) := by
  intro l
  induction l with
  | nil =>
    intro st fb st2 tr d h
    injection h with h1 h2
    injection h1 with h1
    exact Or.inl h1.symm
  | cons b rest ih =>
    intro st fb st2 tr d h
    rw [fallbackGo] at h
    split at h
    · rcases hi : inner b pages with ⟨er | r, st3, tr3⟩
      · rw [hi] at h
        injection h with h1 h2
        exact Except.noConfusion h1
      · rw [hi] at h
        dsimp only at h
        split at h
        · injection h with h1 h2
          injection h1 with h1
          exact Or.inr ⟨b, st3, tr3, by rw [hi, h1]⟩
        · rcases hgo : fallbackGo env inner original pages rest st3 with ⟨res, st4, tr4, d4⟩
          rw [hgo] at h
          dsimp only at h
          injection h with h1 h2
          injection h2 with h2 h3
          rcases res with er2 | fb2
          · exact Except.noConfusion h1
          · injection h1 with h1
            subst h1
            exact ih st3 fb2 st4 tr4 d4 hgo
    · exact ih st fb st2 tr d h

lemma length_filter_cons_le (p : Backend → Bool) (b : Backend) (rest : List Backend) :
    (rest.filter p).length ≤ ((b :: rest).filter p).length := by
  rw [List.filter_cons]
  split
  · simp
  · exact le_refl _

lemma fallbackGo_direct_le (env : Env) (inner : InnerCall) (original : Backend)
    (pages : Option (List Int)) :
    ∀ (l : List Backend) (st : Backend),
      (fallbackGo env inner original pages l st).2.2.2.length ≤
        (l.filter (fun b => b ≠ original)).length := by
  intro l
  induction l with
  | nil => intro st; simp [fallbackGo]
  | cons b rest ih =>
    intro st
    rw [fallbackGo]
    split
    · rename_i hc
      have hfil : (b :: rest).filter (fun b => decide (b ≠ original)) =
          b :: rest.filter (fun b => decide (b ≠ original)) :=
        List.filter_cons_of_pos (by simpa using hc.1)
      rcases hi : inner b pages with ⟨er | r, st3, tr3⟩
      · simp only [hi]
        rw [hfil]
        simp
      · simp only [hi]
        split
        · rw [hfil]
          simp
        · rcases hgo : fallbackGo env inner original pages rest st3 with ⟨res, st4, tr4, d4⟩
          have ih2 := ih st3
          rw [hgo] at ih2
          simp only [hgo]
          rw [hfil]
          simpa using Nat.succ_le_succ ih2
    · exact le_trans (ih st) (length_filter_cons_le _ b rest)

lemma extractPagesContent_falsy (env : Env) (cur : Backend) (tp : Option (List Int))
    (h : truthy tp = false) :
    extractPagesContent env cur tp = extractPagesContent env cur none := by
  unfold extractPagesContent
  rw [h]
  rfl

lemma successResult_falsy (env : Env) (cur : Backend) (tp : Option (List Int))
    (h : truthy tp = false) :
    successResult env cur tp = successResult env cur none := by
  unfold successResult
  rw [extractPagesContent_falsy env cur tp h]

lemma fallbackGo_congr (env : Env) (inner : InnerCall) (original : Backend)
    (hinner : ∀ b, inner b (some []) = inner b none) :
    ∀ (l : List Backend) (st : Backend),
      fallbackGo env inner original (some []) l st =
        fallbackGo env inner original none l st := by
  intro l
  induction l with
  | nil => intro st; rfl
  | cons b rest ih =>
    intro st
    simp only [fallbackGo, hinner b, ih]

lemma tryFallback_congr (env : Env) (inner : InnerCall) (original : Backend)
    (hinner : ∀ b, inner b (some []) = inner b none) :
    tryFallback env inner original (some []) =
      tryFallback env inner original none := by
  unfold tryFallback
  rw [fallbackGo_congr env inner original hinner]

lemma bodyResult_congr (env : Env) (inner : InnerCall) (cur : Backend)
    (hinner : ∀ b, inner b (some []) = inner b none) :
    bodyResult env inner cur (some []) = bodyResult env inner cur none := by
  by_cases h1 : env.canParse = false
  · have ha1 : attemptResult env cur (some []) =
        (Except.ok (cannotParseFail env cur), some []) := by
      unfold attemptResult; rw [if_pos h1]
    have ha2 : attemptResult env cur none =
        (Except.ok (cannotParseFail env cur), none) := by
      unfold attemptResult; rw [if_pos h1]
    unfold bodyResult
    rw [ha1, ha2]
    dsimp only
    rw [tryFallback_congr env inner cur hinner]
  · by_cases h2 : env.statRaises = true
    · have ha1 : attemptResult env cur (some []) =
          (Except.error (Exc.statExc env.statMsg), some []) := by
        unfold attemptResult; rw [if_neg h1, if_pos h2]
      have ha2 : attemptResult env cur none =
          (Except.error (Exc.statExc env.statMsg), none) := by
        unfold attemptResult; rw [if_neg h1, if_pos h2]
      unfold bodyResult
      rw [ha1, ha2]
    · have htr : truthy (some ([] : List Int)) = false := rfl
      have hs : successResult env cur (some []) = successResult env cur none :=
        successResult_falsy env cur (some []) htr
      have ha1 : attemptResult env cur (some []) =
          (Except.ok (successResult env cur none), some []) := by
        unfold attemptResult
        rw [if_neg h1, if_neg h2, htr]
        rw [if_neg (by simp)]
        rw [hs]
      have ha2 : attemptResult env cur none =
          (Except.ok (successResult env cur none), none) := by
        unfold attemptResult
        rw [if_neg h1, if_neg h2]
        rfl
      unfold bodyResult
      rw [ha1, ha2]
      dsimp only
      rw [tryFallback_congr env inner cur hinner]

lemma extractCore_congr (env : Env) (inner : InnerCall) (cur : Backend)
    (hinner : ∀ b, inner b (some []) = inner b none) :
    extractCore env inner cur (some []) = extractCore env inner cur none := by
  unfold extractCore
  rw [bodyResult_congr env inner cur hinner]

lemma successResult_inv (env : Env) (cur : Backend) (pv : Option (List Int))
    (hmr : (env.view cur).metaRaises = false) :
    (successResult env cur pv).pages.length ≤
        (successResult env cur pv).metadata.page_count ∧
      ∀ pd ∈ (successResult env cur pv).pages,
        1 ≤ pd.page_number ∧ pd.page_number ≤ (successResult env cur pv).metadata.page_count := by
  unfold successResult
  dsimp only
  constructor
  · rw [extractMetadata_page_count env cur hmr]
    exact extractPagesContent_length env cur pv
  · intro pd hpd
    rcases extractPagesContent_mem env cur pv pd hpd with ⟨i, hi, rfl, -⟩
    rw [extractMetadata_page_count env cur hmr, buildPageData_page_number]
    omega

lemma attemptResult_ok_inv (env : Env) (cur : Backend) (pages : Option (List Int))
    (r : ExtractionResult) (pv : Option (List Int))
    (hmr : (env.view cur).metaRaises = false)
    (h : attemptResult env cur pages = (Except.ok r, pv)) :
    r.pages.length ≤ r.metadata.page_count ∧
      ∀ pd ∈ r.pages, 1 ≤ pd.page_number ∧ pd.page_number ≤ r.metadata.page_count := by
  unfold attemptResult at h
  split_ifs at h with h1 h2 h3 h4
  · injection h with hl hr
    injection hl with hl
    rw [← hl]
    exact ⟨by simp [cannotParseFail], by simp [cannotParseFail]⟩
  · injection h with hl hr
    exact Except.noConfusion hl
  · injection h with hl hr
    injection hl with hl
    rw [← hl]
    exact ⟨by simp [noValidPagesFail], by simp [noValidPagesFail]⟩
  · injection h with hl hr
    injection hl with hl
    rw [← hl]
    exact successResult_inv env cur _ hmr
  · injection h with hl hr
    injection hl with hl
    rw [← hl]
    exact successResult_inv env cur _ hmr

lemma tryFallback_ok (env : Env) (inner : InnerCall) (original : Backend)
    (pages : Option (List Int)) (fb : ExtractionResult) (st2 : Backend)
    (tr2 d2 : List Backend)
    (h : tryFallback env inner original pages = (Except.ok fb, st2, tr2, d2)) :
    fb = allFallbacksFail ∨ ∃ b st3 tr3, inner b pages = (Except.ok fb, st3, tr3) := by
  unfold tryFallback at h
  rcases hgo : fallbackGo env inner original pages fallbackOrder original with
    ⟨res, st4, tr4, d4⟩
  rw [hgo] at h
  dsimp only at h
  injection h with h1 h2
  rw [h1] at hgo
  exact fallbackGo_ok env inner original pages fallbackOrder original fb st4 tr4 d4 hgo

lemma bodyResult_ok_inv (env : Env) (inner : InnerCall) (cur : Backend)
    (pages : Option (List Int))
    (hmr : ∀ b, (env.view b).metaRaises = false)
    (hinner : ∀ b ps r2 st2 tr2, inner b ps = (Except.ok r2, st2, tr2) →
      r2.pages.length ≤ r2.metadata.page_count ∧
        ∀ pd ∈ r2.pages, 1 ≤ pd.page_number ∧ pd.page_number ≤ r2.metadata.page_count) :
    ∀ r st tr, bodyResult env inner cur pages = (Except.ok r, st, tr) →
      r.pages.length ≤ r.metadata.page_count ∧
        ∀ pd ∈ r.pages, 1 ≤ pd.page_number ∧ pd.page_number ≤ r.metadata.page_count := by
  intro r st tr h
  unfold bodyResult at h
  split at h
  · injection h with h1 h2
    exact Except.noConfusion h1
  · rename_i r0 pagesV heq0
    split at h
    · rename_i hcond
      split at h
      · injection h with h1 h2
        exact Except.noConfusion h1
      · rename_i fb st2 tr2 d2 htf
        split at h
        · rename_i hfb
          injection h with h1 h2
          injection h1 with h1
          subst h1
          rcases tryFallback_ok env inner cur pagesV _ st2 tr2 d2 htf with
            hfb2 | ⟨b, st3, tr3, hin⟩
          · rw [hfb2]
            exact ⟨by simp [allFallbacksFail], by simp [allFallbacksFail]⟩
          · exact hinner b pagesV _ st3 tr3 hin
        · injection h with h1 h2
          injection h1 with h1
          subst h1
          exact attemptResult_ok_inv env cur pages _ pagesV (hmr cur) heq0
    · injection h with h1 h2
      injection h1 with h1
      subst h1
      exact attemptResult_ok_inv env cur pages _ pagesV (hmr cur) heq0

lemma extractCore_inv (env : Env) (inner : InnerCall) (cur : Backend)
    (pages : Option (List Int))
    (hmr : ∀ b, (env.view b).metaRaises = false)
    (hinner : ∀ b ps r2 st2 tr2, inner b ps = (Except.ok r2, st2, tr2) →
      r2.pages.length ≤ r2.metadata.page_count ∧
        ∀ pd ∈ r2.pages, 1 ≤ pd.page_number ∧ pd.page_number ≤ r2.metadata.page_count) :
    (extractCore env inner cur pages).1.pages.length ≤
        (extractCore env inner cur pages).1.metadata.page_count ∧
      ∀ pd ∈ (extractCore env inner cur pages).1.pages,
        1 ≤ pd.page_number ∧
          pd.page_number ≤ (extractCore env inner cur pages).1.metadata.page_count := by
  rcases hb : bodyResult env inner cur pages with ⟨er | r0, st, tr⟩
  · simp only [extractCore, hb]
    exact ⟨by simp [excFail], by simp [excFail]⟩
  · simp only [extractCore, hb]
    exact bodyResult_ok_inv env inner cur pages hmr hinner r0 st tr hb

lemma truthy_of_ne_nil (pl : List Int) (hne : pl ≠ []) : truthy (some pl) = true := by
  simp [truthy, hne]

lemma filteredOf_subset (env : Env) (cur : Backend) (pl : List Int) (p : Int)
    (hp : p ∈ filteredOf env cur (some pl)) : p ∈ pl := by
  unfold filteredOf at hp
  exact List.mem_of_mem_filter hp

lemma successResult_pages_sub (env : Env) (cur : Backend) (f : List Int) (hne : f ≠ []) :
    ∀ pd ∈ (successResult env cur (some f)).pages, (pd.page_number : Int) ∈ f := by
  intro pd hpd
  simp only [successResult] at hpd
  rcases extractPagesContent_mem env cur (some f) pd hpd with ⟨i, hi, rfl, hmem⟩
  have := hmem (truthy_of_ne_nil f hne)
  simpa [buildPageData_page_number] using this

lemma attemptResult_ok_pages_sub (env : Env) (cur : Backend) (pl : List Int)
    (r : ExtractionResult) (pv : Option (List Int)) (hne : pl ≠ [])
    (h : attemptResult env cur (some pl) = (Except.ok r, pv)) :
    ∀ pd ∈ r.pages, (pd.page_number : Int) ∈ filteredOf env cur (some pl) := by
  unfold attemptResult at h
  split_ifs at h with h1 h2 h3 h4
  · injection h with hl hr
    injection hl with hl
    rw [← hl]
    intro pd hpd
    simp [cannotParseFail] at hpd
  · injection h with hl hr
    exact Except.noConfusion hl
  · injection h with hl hr
    injection hl with hl
    rw [← hl]
    intro pd hpd
    simp [noValidPagesFail] at hpd
  · injection h with hl hr
    injection hl with hl
    rw [← hl]
    have hfne : filteredOf env cur (some pl) ≠ [] := by
      intro hx
      rw [hx] at h4
      simp at h4
    exact successResult_pages_sub env cur _ hfne
  · exact absurd (truthy_of_ne_nil pl hne) h3

lemma bodyResult_ok_pages_sub (env : Env) (inner : InnerCall) (cur : Backend)
    (pl : List Int) (r : ExtractionResult) (st : Backend) (tr : List Backend)
    (hne : pl ≠ [])
    (hinner : ∀ b f r2 st2 tr2, f ≠ [] → inner b (some f) = (Except.ok r2, st2, tr2) →
      ∀ pd ∈ r2.pages, (pd.page_number : Int) ∈ f)
    (h : bodyResult env inner cur (some pl) = (Except.ok r, st, tr)) :
    ∀ pd ∈ r.pages, (pd.page_number : Int) ∈ filteredOf env cur (some pl) := by
  unfold bodyResult at h
  split at h
  · injection h with h1 h2
    exact Except.noConfusion h1
  · rename_i r0 pagesV heq0
    split at h
    · rename_i hcond
      obtain ⟨-, hpv, -⟩ :=
        attemptResult_ok_success env cur (some pl) r0 pagesV heq0 hcond.1
      obtain ⟨hpv1, hpv2⟩ := hpv (truthy_of_ne_nil pl hne)
      have hfne : filteredOf env cur (some pl) ≠ [] := by
        intro hx
        rw [hx] at hpv2
        simp at hpv2
      split at h
      · injection h with h1 h2
        exact Except.noConfusion h1
      · rename_i fb st2 tr2 d2 htf
        split at h
        · injection h with h1 h2
          injection h1 with h1
          subst h1
          rcases tryFallback_ok env inner cur pagesV _ st2 tr2 d2 htf with
            hfb2 | ⟨b, st3, tr3, hin⟩
          · rw [hfb2]
            intro pd hpd
            simp [allFallbacksFail] at hpd
          · rw [hpv1] at hin
            exact hinner b _ _ st3 tr3 hfne hin
        · injection h with h1 h2
          injection h1 with h1
          subst h1
          exact attemptResult_ok_pages_sub env cur pl _ pagesV hne heq0
    · injection h with h1 h2
      injection h1 with h1
      subst h1
      exact attemptResult_ok_pages_sub env cur pl _ pagesV hne heq0

lemma extractCore_pages_sub (env : Env) (inner : InnerCall) (cur : Backend)
    (pl : List Int) (hne : pl ≠ [])
    (hinner : ∀ b f r2 st2 tr2, f ≠ [] → inner b (some f) = (Except.ok r2, st2, tr2) →
      ∀ pd ∈ r2.pages, (pd.page_number : Int) ∈ f) :
    ∀ pd ∈ (extractCore env inner cur (some pl)).1.pages,
      (pd.page_number : Int) ∈ filteredOf env cur (some pl) := by
  rcases hb : bodyResult env inner cur (some pl) with ⟨er | r0, st, tr⟩
  · simp only [extractCore, hb]
    intro pd hpd
    simp [excFail] at hpd
  · simp only [extractCore, hb]
    exact bodyResult_ok_pages_sub env inner cur pl r0 st tr hne hinner hb

lemma extractTextF_pages_sub (env : Env) :
    ∀ (fuel : Nat) (cur : Backend) (f : List Int), f ≠ [] →
      ∀ pd ∈ (extractTextF env fuel cur (some f)).1.pages, (pd.page_number : Int) ∈ f := by
  intro fuel
  induction fuel with
  | zero =>
    intro cur f hne pd hpd
    have hinner : ∀ (b : Backend) (f2 : List Int) r2 st2 tr2, f2 ≠ [] →
        (fun (b : Backend) (_ : Option (List Int)) =>
          ((Except.error Exc.recursionError : Except Exc ExtractionResult), b,
            ([] : List Backend))) b (some f2) = (Except.ok r2, st2, tr2) →
        ∀ pd2 ∈ r2.pages, (pd2.page_number : Int) ∈ f2 := by
      intro b f2 r2 st2 tr2 hf2 hin
      injection hin with h1 h2
      exact Except.noConfusion h1
    exact filteredOf_subset env cur f _
      (extractCore_pages_sub env _ cur f hne hinner pd hpd)
  | succ n ih =>
    intro cur f hne pd hpd
    have hinner : ∀ (b : Backend) (f2 : List Int) r2 st2 tr2, f2 ≠ [] →
        (fun (b : Backend) (ps : Option (List Int)) =>
          let o := extractTextF env n b ps
          ((Except.ok o.1 : Except Exc ExtractionResult), o.2.1, o.2.2)) b (some f2) =
          (Except.ok r2, st2, tr2) →
        ∀ pd2 ∈ r2.pages, (pd2.page_number : Int) ∈ f2 := by
      intro b f2 r2 st2 tr2 hf2 hin
      dsimp only at hin
      injection hin with h1 h2
      injection h1 with h1
      rw [← h1]
      exact ih b f2 hf2
    exact filteredOf_subset env cur f _
      (extractCore_pages_sub env _ cur f hne hinner pd hpd)

lemma extractCore_nvp (env : Env) (inner : InnerCall) (cur : Backend) (pl : List Int)
    (h1 : env.canParse = true) (h2 : env.statRaises = false) (hne : pl ≠ [])
    (hf : filteredOf env cur (some pl) = []) :
    (extractCore env inner cur (some pl)).1 =
      noValidPagesFail (extractMetadata env cur) cur := by
  have ha : attemptResult env cur (some pl) =
      (Except.ok (noValidPagesFail (extractMetadata env cur) cur),
        some (filteredOf env cur (some pl))) := by
    unfold attemptResult
    rw [if_neg (by simp [h1]), if_neg (by simp [h2]), if_pos (truthy_of_ne_nil pl hne),
      if_pos (by simp [hf])]
  have hb : bodyResult env inner cur (some pl) =
      (Except.ok (noValidPagesFail (extractMetadata env cur) cur), cur, [cur]) := by
    unfold bodyResult
    rw [ha]
    dsimp only
    rw [if_neg (by simp [noValidPagesFail])]
  simp only [extractCore, hb]

lemma extractPagesContent_quality_nonneg (env : Env) (cur : Backend)
    (tp : Option (List Int)) :
    ∀ pd ∈ extractPagesContent env cur tp, 0 ≤ pd.extraction_quality := by
  intro pd hpd
  rcases extractPagesContent_mem env cur tp pd hpd with ⟨i, hi, rfl, -⟩
  unfold buildPageData
  dsimp only
  exact assessPageQuality_nonneg _

/-- C2: for every page record, `_assess_page_quality` computes exactly the
spec's formula — 1.0 multiplicatively penalised (×0.5, ×0.7, ×0.8), 0.0
terminal for `char_count == 0`, clamped to at most 1.0 — and in
particular every page record built by the extractor from empty text has
quality score exactly 0.0. -/
theorem claim2_page_quality_spec :
    (∀ pd : PageData, assessPageQuality pd = pageQualitySpecC2 pd) ∧
    (∀ (env : Env) (cur : Backend) (i : Nat),
      (buildPageData env cur i).text = [] →
        (buildPageData env cur i).extraction_quality = 0) := by
  constructor
  · exact page_quality_eq_spec
  · intro env cur i h
    unfold buildPageData at h ⊢
    dsimp only at h ⊢
    rw [assessPageQuality]
    simp [h]

/-- C2 witness: the formula equality evaluated at a concrete page record,
and the empty-text clause discharged at a concrete environment (page 0 of
`envStat`'s view is empty). -/
theorem claim2_page_quality_spec_witness :
    assessPageQuality
        { page_number := 1, text := "ab".toList, word_count := 1, char_count := 2 } =
      pageQualitySpecC2
        { page_number := 1, text := "ab".toList, word_count := 1, char_count := 2 } ∧
    (buildPageData envStat Backend.pymupdf 0).extraction_quality = 0 :=
  ⟨claim2_page_quality_spec.1 _,
   claim2_page_quality_spec.2 envStat Backend.pymupdf 0 (by decide)⟩

/-- C3: the aggregate quality score of every successful extraction result
equals the spec's formula — the mean of the per-page scores, ×1.1 when
some word exists and the mean word length lies in [2, 12] and ×0.9
otherwise, clamped to [0, 1]; an empty page sequence or zero total
characters yields exactly 0.0. -/
theorem claim3_aggregate_quality_spec (env : Env) (cur : Backend)
    (pv : Option (List Int)) :
    (successResult env cur pv).quality_score =
      aggregateSpecC3 (successResult env cur pv).pages (successResult env cur pv).text := by
  unfold successResult
  dsimp only
  exact aggregate_eq_spec (extractPagesContent env cur pv)
    (extractPagesContent_quality_nonneg env cur pv)

/-- C4: whenever a call to `extract_text` attempts the fallback (first
attempt succeeded with quality below the threshold and an alternate
backend exists), the returned outcome's aggregate quality score is at
least the first-attempted backend's score. -/
theorem claim4_fallback_monotone (env : Env) (fuel : Nat) (cur : Backend)
    (pages : Option (List Int)) (r : ExtractionResult) (pv : Option (List Int))
    (ha : attemptResult env cur pages = (Except.ok r, pv))
    (hs : r.success = true) (hq : r.quality_score < env.thr)
    (hf : hasFallback env cur = true) :
    r.quality_score ≤ (extractTextF env fuel cur pages).1.quality_score := by
  cases fuel with
  | zero => exact extractCore_ge_attempt env _ cur pages r pv ha
  | succ n => exact extractCore_ge_attempt env _ cur pages r pv ha

/-- C4 witness: in `envA` the primary PyMuPDF attempt on page 3 scores
0.55 < 0.7 with fallbacks available, and the call returns the PyPDF2
outcome with score 1.0 ≥ 0.55. -/
theorem claim4_fallback_monotone_witness :
    (successResult envA Backend.pymupdf (some [3])).quality_score ≤
      (extractTextF envA 10 Backend.pymupdf (some [3])).1.quality_score :=
  claim4_fallback_monotone envA 10 Backend.pymupdf (some [3])
    (successResult envA Backend.pymupdf (some [3])) (some [3])
    (by decide) (by decide) (by decide) (by decide)

/-- C7: every `ExtractionResult` returned by `extract_text` with
`success = false` has empty text and an empty page sequence. -/
theorem claim7_failure_empty (env : Env) (fuel : Nat) (cur : Backend)
    (pages : Option (List Int))
    (h : (extractTextF env fuel cur pages).1.success = false) :
    (extractTextF env fuel cur pages).1.text = [] ∧
      (extractTextF env fuel cur pages).1.pages = [] := by
  cases fuel with
  | zero => exact extractCore_false_empty env _ cur pages h
  | succ n => exact extractCore_false_empty env _ cur pages h

/-- C7 witness: the `stat`-raising environment produces a failed result,
which indeed has empty text and pages. -/
theorem claim7_failure_empty_witness :
    (extractTextF envStat 1 Backend.pymupdf none).1.text = [] ∧
      (extractTextF envStat 1 Backend.pymupdf none).1.pages = [] :=
  claim7_failure_empty envStat 1 Backend.pymupdf none (by decide)

/-- C9: an explicitly empty page list behaves exactly like passing no
page selection — the guard `if pages:` is falsy for both, so the whole
call (result, final backend attribute, and activation trace) is
identical. -/
theorem claim9_empty_pages_like_none (env : Env) (fuel : Nat) (cur : Backend) :
    extractTextF env fuel cur (some []) = extractTextF env fuel cur none := by
  induction fuel generalizing cur with
  | zero => exact extractCore_congr env _ cur (fun b => rfl)
  | succ n ih =>
    exact extractCore_congr env _ cur (fun b => by dsimp only; rw [ih b])

/-- C10: the parser's `backend` attribute has the same value after any
`extract_text` call as before it, on every path — the `finally` block of
`_try_fallback_extraction` restores it whether the fallback succeeds,
fails, or raises. -/
theorem claim10_backend_restored (env : Env) (fuel : Nat) (cur : Backend)
    (pages : Option (List Int)) : (extractTextF env fuel cur pages).2.1 = cur := by
  cases fuel with
  | zero => exact extractCore_state env _ cur pages
  | succ n => exact extractCore_state env _ cur pages

/-- C1 counterexample: in `envA`, with all three backends available and
page selection `[3]`, the low-quality primary attempt triggers the
fallback loop, the pdfplumber attempt fails (its reported page count is
2, so the selection empties to `NoValidPages`), and the loop then also
attempts PyPDF2 — three pipeline activations in one call, i.e. two
alternate backend attempts beyond the first, contradicting "at most one
alternate attempt per call". -/
theorem claim1_single_fallback_counterexample :
    ¬ ((extractTextF envA 10 Backend.pymupdf (some [3])).2.2.length ≤ 2) := by decide

/-- C1 amended: `extract_text` invokes `_try_fallback_extraction` at most
once per activation, but that one invocation loops over the remaining
backends until an attempt succeeds, so it directly attempts up to two
alternate backends (every known backend other than the current one); and
since each alternate attempt recursively runs `extract_text`, further
fallback invocations can occur below it.  The direct-attempt bound: -/
theorem claim1_fallback_direct_attempts_le_two (env : Env) (inner : InnerCall)
    (original : Backend) (pages : Option (List Int)) :
    (tryFallback env inner original pages).2.2.2.length ≤ 2 := by
  have h := fallbackGo_direct_le env inner original pages fallbackOrder original
  have h2 : ((fallbackOrder.filter (fun b => b ≠ original)).length ≤ 2) := by
    cases original <;> decide
  calc (tryFallback env inner original pages).2.2.2.length
      = (fallbackGo env inner original pages fallbackOrder original).2.2.2.length := rfl
  _ ≤ (fallbackOrder.filter (fun b => b ≠ original)).length := h
  _ ≤ 2 := h2

/-- C5: with a non-empty explicit page list, every requested page number
outside `[1, metadata.page_count]` is silently dropped — the returned
records' page numbers all lie in the bounds-filtered selection — and if
the filter empties the whole selection, the call returns exactly the
failed `NoValidPages` outcome. -/
theorem claim5_page_filtering (env : Env) (fuel : Nat) (cur : Backend) (pl : List Int)
    (h1 : env.canParse = true) (h2 : env.statRaises = false) (hne : pl ≠ []) :
    (filteredOf env cur (some pl) = [] →
      (extractTextF env fuel cur (some pl)).1 =
        noValidPagesFail (extractMetadata env cur) cur) ∧
    (∀ pd ∈ (extractTextF env fuel cur (some pl)).1.pages,
      (pd.page_number : Int) ∈ filteredOf env cur (some pl)) := by
  constructor
  · intro hf
    cases fuel with
    | zero => exact extractCore_nvp env _ cur pl h1 h2 hne hf
    | succ n => exact extractCore_nvp env _ cur pl h1 h2 hne hf
  · have hinner : ∀ (fuel2 : Nat), ∀ (b : Backend) (f2 : List Int) r2 st2 tr2, f2 ≠ [] →
        (fun (b : Backend) (ps : Option (List Int)) =>
          let o := extractTextF env fuel2 b ps
          ((Except.ok o.1 : Except Exc ExtractionResult), o.2.1, o.2.2)) b (some f2) =
          (Except.ok r2, st2, tr2) →
        ∀ pd2 ∈ r2.pages, (pd2.page_number : Int) ∈ f2 := by
      intro fuel2 b f2 r2 st2 tr2 hf2 hin
      dsimp only at hin
      injection hin with ha hb
      injection ha with ha
      rw [← ha]
      exact extractTextF_pages_sub env fuel2 b f2 hf2
    cases fuel with
    | zero =>
      refine extractCore_pages_sub env _ cur pl hne ?_
      intro b f2 r2 st2 tr2 hf2 hin
      injection hin with ha hb
      exact Except.noConfusion ha
    | succ n => exact extractCore_pages_sub env _ cur pl hne (hinner n)

/-- C5 witness: requesting only page 99 of `envA`'s five-page document
empties the filter, and the call returns the `NoValidPages` failure. -/
theorem claim5_page_filtering_witness :
    ((filteredOf envA Backend.pymupdf (some [99]) = [] →
      (extractTextF envA 3 Backend.pymupdf (some [99])).1 =
        noValidPagesFail (extractMetadata envA Backend.pymupdf) Backend.pymupdf) ∧
    (∀ pd ∈ (extractTextF envA 3 Backend.pymupdf (some [99])).1.pages,
      (pd.page_number : Int) ∈ filteredOf envA Backend.pymupdf (some [99]))) :=
  claim5_page_filtering envA 3 Backend.pymupdf [99] rfl rfl (by decide)

/-- C6: every exception escaping the `try` body of `extract_text` is
caught and converted into a failed result whose `error_message` is the
exception's message (never propagated); the one exception outside this
policy is `NoBackendAvailable`, raised by `_select_pdf_backend` at
initialisation exactly when no extraction library imported. -/
theorem claim6_exceptions_converted :
    (∀ (env : Env) (inner : InnerCall) (cur : Backend) (pages : Option (List Int))
        (e : Exc) (st : Backend) (tr : List Backend),
      bodyResult env inner cur pages = (Except.error e, st, tr) →
        (extractCore env inner cur pages).1 =
          { success := false, text := [], pages := [], metadata := {},
            backend_used := cur.name, error_message := some (excMsg e) }) ∧
    (∀ (preferred : String) (hp hd h2 : Bool),
      selectBackend preferred hp hd h2 = Except.error noBackendMsg ↔
        (hp = false ∧ hd = false ∧ h2 = false)) := by
  constructor
  · intro env inner cur pages e st tr h
    simp only [extractCore, h]
    rfl
  · intro preferred hp hd h2
    unfold selectBackend
    split_ifs with a1 a2 a3 a4 a5 a6 <;>
      constructor <;> intro hx <;> simp_all

/-- C6 witness: the `stat`-raising exception is converted into a failed
result carrying its message, and init fails with `NoBackendAvailable`
exactly for the no-library environment. -/
theorem claim6_exceptions_converted_witness :
    (extractCore envStat innerNone Backend.pymupdf none).1 =
      { success := false, text := [], pages := [], metadata := {},
        backend_used := Backend.pymupdf.name,
        error_message := some (excMsg (Exc.statExc "stat failed")) } ∧
    selectBackend "auto" false false false = Except.error noBackendMsg :=
  ⟨claim6_exceptions_converted.1 envStat innerNone Backend.pymupdf none
      (Exc.statExc "stat failed") Backend.pymupdf [Backend.pymupdf] (by decide),
   (claim6_exceptions_converted.2 "auto" false false false).2 ⟨rfl, rfl, rfl⟩⟩

/-- C8 counterexample: in `envB` the metadata read raises before
`page_count` is assigned (it stays 0) while page iteration succeeds and
yields one record, so the returned result has more page records than
`metadata.page_count`. -/
theorem claim8_pages_bound_counterexample :
    ¬ ((extractTextF envB 5 Backend.pymupdf none).1.pages.length ≤
        (extractTextF envB 5 Backend.pymupdf none).1.metadata.page_count) := by decide

/-- C8 amended: provided metadata extraction does not raise before
reporting the backend's page count (so `metadata.page_count` is the same
page count the content loop iterates), every returned result has at most
`metadata.page_count` page records, each with page number in
`[1, metadata.page_count]`. -/
theorem claim8_pages_bounded_amended (env : Env)
    (hmr : ∀ b, (env.view b).metaRaises = false) (fuel : Nat) (cur : Backend)
    (pages : Option (List Int)) :
    (extractTextF env fuel cur pages).1.pages.length ≤
        (extractTextF env fuel cur pages).1.metadata.page_count ∧
      ∀ pd ∈ (extractTextF env fuel cur pages).1.pages,
        1 ≤ pd.page_number ∧
          pd.page_number ≤ (extractTextF env fuel cur pages).1.metadata.page_count := by
  induction fuel generalizing cur pages with
  | zero =>
    refine extractCore_inv env _ cur pages hmr ?_
    intro b ps r2 st2 tr2 hin
    injection hin with h1 h2
    exact Except.noConfusion h1
  | succ n ih =>
    refine extractCore_inv env _ cur pages hmr ?_
    intro b ps r2 st2 tr2 hin
    dsimp only at hin
    injection hin with h1 h2
    injection h1 with h1
    rw [← h1]
    exact ih b ps

/-- C8 witness: the amended bound discharged at `envA` (whose metadata
reads never raise). -/
theorem claim8_pages_bounded_amended_witness :
    (extractTextF envA 10 Backend.pymupdf (some [3])).1.pages.length ≤
        (extractTextF envA 10 Backend.pymupdf (some [3])).1.metadata.page_count ∧
      ∀ pd ∈ (extractTextF envA 10 Backend.pymupdf (some [3])).1.pages,
        1 ≤ pd.page_number ∧
          pd.page_number ≤
            (extractTextF envA 10 Backend.pymupdf (some [3])).1.metadata.page_count :=
  claim8_pages_bounded_amended envA (by intro b; cases b <;> rfl) 10 Backend.pymupdf
    (some [3])
